import Mathlib

/-!
Verification of `http_request_tool.c`.

A shallow embedding of the profiling engine of `src/http_request_tool.c`
(request framing, the per-request loop of `main`, the sorted latency list,
the median, the min/max tracking and the error-code list), followed by the
theorems about them, one for each claim of the specification.

Conventions of the embedding

* A `char` is a `Char`; a C string is the list of its bytes before the
  terminating NUL, and a region of memory is a list of bytes that may hold NULs.
* `long`, `int`, `ssize_t` values are `Int`.  The counters of the program
  (`listSize`, `successfulReqs`, `i`) move by one per loop iteration and the loop
  runs `numRequest <= INT_MAX` times, so they never leave the range of `int`;
  clock readings and their differences are taken as they are.  The one addition of
  two arbitrary list values (`findMedian`) wraps modulo `2^64`, and the comparison of
  the result of `send` with `len` is made after conversion to `size_t`.
* A `float` is the rational number it denotes; conversion from an integer rounds
  to 24 significant bits, ties to even (`toFloat`).
* The linked lists `timeList` and `errorCodeList` are Lean lists, head first.
* A NULL dereference is `none`.
-/

namespace HttpRequestTool

/-! ## Constants and C strings -/

/-- The constant `#define BUF_SIZE 4096`. -/
def BUF_SIZE : Nat := 4096

/-- The string terminator. -/
def NUL : Char := Char.ofNat 0

/-- The C string that starts at the first byte of a memory region: its bytes up to,
and not including, the first NUL. -/
def cstr (mem : List Char) : List Char :=
  mem.takeWhile (fun c => c != NUL)

/-- Library `strlen` on a memory region. -/
def strlen (mem : List Char) : Nat :=
  (cstr mem).length

/-- Library `strchr(s, c)`: the offset of the first occurrence of `c` in the string `s`,
`none` for a NULL result. -/
def strchr : List Char → Char → Option Nat
  | [], _ => none
  | x :: xs, c => if x = c then some 0 else (strchr xs c).map (fun k => k + 1)

/-- Library `strcat(dest, src)` into a buffer of `cap` bytes holding the string `dest`:
the new content of the buffer, `none` when string and terminator do not fit. -/
def strcat (cap : Nat) (dest src : List Char) : Option (List Char) :=
  if dest.length + src.length + 1 ≤ cap then some (dest ++ src) else none

/-- Library `strcmp` on two strings: zero, or the difference of the first two bytes
that differ (the terminator counting as byte 0). -/
def strcmp : List Char → List Char → Int
  | [], [] => 0
  | [], b :: _ => 0 - (b.toNat : Int)
  | a :: _, [] => (a.toNat : Int)
  | a :: as, b :: bs => if a = b then strcmp as bs else (a.toNat : Int) - (b.toNat : Int)

/-! ## Machine arithmetic -/

/-- Reduction of an integer to the range of `long` (64 bits, two's complement). -/
def wrapLong (z : Int) : Int :=
  (z + 9223372036854775808) % 18446744073709551616 - 9223372036854775808

/-- Conversion of an `ssize_t` to `size_t`, as the comparison `send(...) != len` does. -/
def toSizeT (z : Int) : Int :=
  z % 18446744073709551616

/-- Search for the least `e` with `m < 2^(24+e)`, starting at `e`, at most `fuel` steps. -/
def ulpSearch (m : Nat) : Nat → Nat → Nat
  | 0, e => e
  | fuel + 1, e => if m < 2 ^ (24 + e) then e else ulpSearch m fuel (e + 1)

/-- Binary exponent of the last place of a `float` of magnitude `m`: the least `e` with
`m < 2^(24+e)`.  Forty steps cover every magnitude up to `2^64`. -/
def ulpExp (m : Nat) : Nat :=
  ulpSearch m 40 0

/-- The cast `(float) z` of an integer: the nearest number with a 24-bit significand,
ties to the even significand.  The result is again an integer. -/
def toFloat (z : Int) : Int :=
  let m := z.natAbs
  let u := 2 ^ ulpExp m
  let q := m / u
  let r := m % u
  Int.sign z * (((if u < 2 * r ∨ (2 * r = u ∧ q % 2 = 1) then q + 1 else q) * u : Nat) : Int)

/-! ## Global state: the two linked lists -/

/-- A node of `errorCodeList` stores a `char *`.  The only pointer the program ever
stores there is the address of the local array `statusCode` of `main`. -/
inductive CharPtr where
  | statusCode
  deriving DecidableEq

/-- The global variables `timeList`, `listSize`, `errorCodeList`. -/
structure Globals where
  timeList : List Int
  listSize : Int
  errorCodeList : List CharPtr
  deriving DecidableEq

/-- The initial values `timeList = NULL`, `listSize = 0`, `errorCodeList = NULL`. -/
def Globals.init : Globals :=
  { timeList := [], listSize := 0, errorCodeList := [] }

/-- The `while` loop of `insertNodeSorted`: `passed` are the nodes the cursor has left
behind (the last one is `precursor`), the second list starts at `cursor`. -/
def insertCursor (value : Int) : List Int → List Int → List Int × List Int
  | passed, [] => (passed, [])
  | passed, t :: next =>
    if t < value then insertCursor value (passed ++ [t]) next else (passed, t :: next)

/-- The function `void insertNodeSorted(long value)`. -/
def insertNodeSorted (value : Int) (g : Globals) : Globals :=
  let (passed, cursor) := insertCursor value [] g.timeList
  let newNode := value :: cursor
  let timeList := if passed = [] then newNode else passed ++ newNode
  { g with timeList := timeList, listSize := g.listSize + 1 }

/-- The two `while` loops of `findMedian`: advance the cursor while it is not NULL and
the position satisfies the loop condition. -/
def medianCursor (cond : Int → Bool) : Int → List Int → List Int
  | _, [] => []
  | position, t :: next =>
    if cond position then medianCursor cond (position + 1) next else t :: next

/-- The function `float findMedian()`; `none` is a NULL dereference. -/
def findMedian (g : Globals) : Option Rat :=
  if Int.tmod g.listSize 2 = 0 then
    match medianCursor (fun p => decide (p < Int.tdiv g.listSize 2)) 1 g.timeList with
    | [] => none
    | leftMiddle :: next =>
      let rightMiddle := match next with
        | [] => leftMiddle
        | t :: _ => t
      some ((toFloat (wrapLong (leftMiddle + rightMiddle)) : Rat) / 2)
  else if Int.tmod g.listSize 2 = 1 then
    match medianCursor (fun p => decide (p ≤ Int.tdiv g.listSize 2)) 1 g.timeList with
    | [] => none
    | t :: _ => some (toFloat t : Rat)
  else some (toFloat (-1) : Rat)

/-- The function `void insertError(char *errorCode)`: the node keeps the pointer. -/
def insertError (errorCode : CharPtr) (g : Globals) : Globals :=
  match g.errorCodeList with
  | [] => { g with errorCodeList := [errorCode] }
  | e :: es => { g with errorCodeList := errorCode :: e :: es }

/-- Insert a sequence of values one by one, first value first. -/
def insertAll (vs : List Int) (g : Globals) : Globals :=
  vs.foldl (fun acc v => insertNodeSorted v acc) g

/-! ## Request framing (`main`, lines 95-118 and 167-175) -/

/-- The construction of the request from the argument that follows `--url`
(`argv[2]`, given by its bytes before the terminator): the pair of the string left in
`request` and the string `host`; `none` when a `strcat` would overrun `request`. -/
def buildRequest (arg : List Char) : Option (List Char × List Char) := do
  let request := "GET ".toList
  let (request, host) ←
    match strchr arg '/' with
    | none => do
      let slash := "/".toList
      let request ← strcat BUF_SIZE request slash
      pure (request, arg)
    | some k => do
      let slash := arg.drop k
      let request ← strcat BUF_SIZE request slash
      let host := cstr (arg.set k NUL ++ [NUL])
      pure (request, host)
  let request ← strcat BUF_SIZE request " HTTP/1.1\r\nHost: ".toList
  let request ← strcat BUF_SIZE request host
  let request ← strcat BUF_SIZE request "\r\nConnection: close\r\n\r\n".toList
  pure (request, host)

/-- The bytes of the array `char request[BUF_SIZE] = "GET "` once it holds the string
`request`: the string, then zero bytes up to the end of the array. -/
def requestMem (request : List Char) : List Char :=
  request ++ List.replicate (BUF_SIZE - request.length) NUL

/-- The length argument of `send`: `len = strlen(request) + 1`. -/
def sendLen (request : List Char) : Nat :=
  strlen (requestMem request) + 1

/-- The bytes handed to `send(sockFileDesc, request, len, 0)`: the first `len` bytes of
the array. -/
def sendBytes (request : List Char) : List Char :=
  (requestMem request).take (sendLen request)

/-! ## One request (`main`, lines 136-223) -/

/-- One entry of the address list of `getaddrinfo`, reduced to what the program
observes of it: whether `socket` and `connect` succeed on it. -/
structure Candidate where
  socketOk : Bool
  connectOk : Bool
  deriving DecidableEq

/-- The structure `struct timeval`. -/
structure Timeval where
  tv_sec : Int
  tv_usec : Int
  deriving DecidableEq

/-- The timestamp `(long)tv_sec * 1000 + (long)tv_usec / 1000`. -/
def millis (t : Timeval) : Int :=
  t.tv_sec * 1000 + Int.tdiv t.tv_usec 1000

/-- What the operating system answers during one iteration of the request loop. -/
structure Exchange where
  /-- Address list of a successful `getaddrinfo`, `none` when it returns nonzero. -/
  resolved : Option (List Candidate)
  /-- Clock at the first `gettimeofday`. -/
  startTime : Timeval
  /-- Return value of `send`. -/
  sendRet : Int
  /-- Bytes the peer delivers to `recv`, `none` when `recv` returns -1. -/
  received : Option (List Char)
  /-- Clock at the second `gettimeofday`. -/
  stopTime : Timeval
  /-- Bytes that lie behind the array `statusCode` in memory, up to a NUL.  The array
  has three bytes and no terminator, so `strcmp` reads on into them. -/
  trailing : List Char

/-- The four places of the loop that call `exit(EXIT_FAILURE)`. -/
inductive Fatal where
  | getaddrinfo
  | connect
  | send
  | recv
  deriving DecidableEq

/-- The variables of the program: the globals, the locals of `main` that the loop
updates, and a count of the iterations begun (not a program variable). -/
structure State extends Globals where
  successfulReqs : Int
  minTime : Int
  maxTime : Int
  totalTime : Int
  minBytes : Int
  maxBytes : Int
  response : Nat → Char
  statusCode : List Char
  iterations : Nat

/-- The loop `for (rp = result; rp != NULL; rp = rp->ai_next)`: the value of `rp` after
it, `none` for NULL. -/
def connectLoop : List Candidate → Option Candidate
  | [] => none
  | rp :: next =>
    if rp.socketOk = false then connectLoop next
    else if rp.connectOk then some rp
    else connectLoop next

/-- The call `nread = recv(sockFileDesc, response, BUF_SIZE, 0)` when it succeeds: at
most `BUF_SIZE` bytes are stored at the start of `response`, the rest of the buffer
keeps its content. -/
def recv (response : Nat → Char) (data : List Char) : (Nat → Char) × Int :=
  let got := data.take BUF_SIZE
  (fun j => got.getD j (response j), (got.length : Int))

/-- The three assignments `statusCode[k] = response[9 + k]`. -/
def extractStatusCode (response : Nat → Char) : List Char :=
  [response 9, response 10, response 11]

/-- The string found at a stored `char *`: the content of `statusCode`, read up to the
first NUL of it or of the bytes behind it. -/
def deref (_p : CharPtr) (statusCode trailing : List Char) : List Char :=
  cstr (statusCode ++ trailing ++ [NUL])

/-- Lines 194-200 of the loop body: take the status code from the fixed offsets of
`response`, and count and record the request as failed when `strcmp` finds the string
at `statusCode` different from `"200"`. -/
def classify (trailing : List Char) (st : State) : State :=
  let st := { st with statusCode := extractStatusCode st.response }
  if strcmp (deref CharPtr.statusCode st.statusCode trailing) "200".toList ≠ 0 then
    { st with
      successfulReqs := st.successfulReqs - 1
      toGlobals := insertError CharPtr.statusCode st.toGlobals }
  else st

/-- Lines 205-221 of the loop body: seed or update the extremes and the total. -/
def track (i : Int) (elapsed nread : Int) (st : State) : State :=
  if i = 0 then
    { st with
      minTime := elapsed, maxTime := elapsed, totalTime := elapsed
      minBytes := nread, maxBytes := nread }
  else
    let st :=
      if elapsed < st.minTime then { st with minTime := elapsed }
      else if elapsed > st.maxTime then { st with maxTime := elapsed }
      else st
    let st :=
      if nread < st.minBytes then { st with minBytes := nread }
      else if nread > st.maxBytes then { st with maxBytes := nread }
      else st
    { st with totalTime := st.totalTime + elapsed }

/-- The statistics block of the loop body (lines 193-222), for iteration `i`. -/
def accumulate (i : Int) (start stop nread : Int) (trailing : List Char) (st : State) :
    State :=
  let st := classify trailing st
  let elapsed := stop - start
  let st := { st with toGlobals := insertNodeSorted elapsed st.toGlobals }
  track i elapsed nread st

/-- The body of the request loop for iteration `i`: the state after it, or the place
where the program exits together with the state at that moment. -/
def iteration (profile : Bool) (request : List Char) (i : Int) (x : Exchange) (st : State) :
    Except (Fatal × State) State :=
  let st := { st with iterations := st.iterations + 1 }
  match x.resolved with
  | none => Except.error (Fatal.getaddrinfo, st)
  | some result =>
    match connectLoop result with
    | none => Except.error (Fatal.connect, st)
    | some _ =>
      let len := sendLen request
      let start := millis x.startTime
      if toSizeT x.sendRet ≠ (len : Int) then Except.error (Fatal.send, st)
      else
        match x.received with
        | none => Except.error (Fatal.recv, st)
        | some data =>
          let (response, nread) := recv st.response data
          let stop := millis x.stopTime
          let st := { st with response := response }
          if profile then Except.ok (accumulate i start stop nread x.trailing st)
          else Except.ok st

/-- The loop `for (i = 0; i < numRequest; ++i)`, entered at `i` with `numRequest - i`
iterations remaining; `net i` is what the system answers in iteration `i`. -/
def requestLoop (profile : Bool) (request : List Char) (net : Nat → Exchange) :
    Nat → Nat → State → Except (Fatal × State) State
  | 0, _, st => Except.ok st
  | remaining + 1, i, st =>
    match iteration profile request (i : Int) (net i) st with
    | Except.error e => Except.error e
    | Except.ok st => requestLoop profile request net remaining (i + 1) st

/-! ## The run and its report (`main`, lines 120-128 and 225-243) -/

/-- The value of `numRequest`: 1, or in profiling mode the result of `atoi(argv[4])`
when that is at least 1. -/
def numRequestOf (profile : Bool) (atoiResult : Int) : Int :=
  if profile then (if atoiResult < 1 then 1 else atoiResult) else 1

/-- The output of `printList`: the times of the nodes of `timeList`, head first. -/
def printList (st : State) : List Int :=
  st.timeList

/-- The output of `printErrorCodes`: one string per node, read through its pointer. -/
def printErrorCodes (st : State) (trailing : List Char) : List (List Char) :=
  st.errorCodeList.map (fun p => deref p st.statusCode trailing)

/-- The value `(float)(successfulReqs / numRequest) * 100` printed as the success
percentage: an integer division, a conversion, a `float` product. -/
def succeededPercent (successfulReqs numRequest : Int) : Rat :=
  (toFloat (toFloat (Int.tdiv successfulReqs numRequest) * 100) : Rat)

/-- The statistics printed at the end of a profiling run (all lines but the average). -/
structure Report where
  numRequest : Int
  fastest : Int
  slowest : Int
  median : Rat
  times : List Int
  succeeded : Rat
  errorCodes : List (List Char)
  smallest : Int
  largest : Int

/-- How the process ends: `exit(status)`, or undefined behaviour (an overrun of
`request`, a NULL dereference). -/
inductive Termination where
  | exit (status : Int)
  | undefined
  deriving DecidableEq

/-- The constant `EXIT_SUCCESS`. -/
def EXIT_SUCCESS : Int := 0

/-- The constant `EXIT_FAILURE`. -/
def EXIT_FAILURE : Int := 1

/-- The observable result of a run. -/
structure RunResult where
  termination : Termination
  /-- Number of loop iterations that were begun. -/
  iterations : Nat
  /-- The place of the failing call, when the run ended in `exit(EXIT_FAILURE)`. -/
  fatal : Option Fatal
  report : Option Report

/-- The state on entry to the request loop.  `stack` stands for the indeterminate
content of the locals that `main` does not initialise. -/
def initialState (numRequest : Int) (stack : State) : State :=
  { stack with
    toGlobals := Globals.init
    successfulReqs := numRequest
    iterations := 0 }

/-- The block that prints the statistics (lines 225-239). -/
def report (numRequest : Int) (st : State) (trailing : List Char) : Option Report :=
  match findMedian st.toGlobals with
  | none => none
  | some median =>
    some
      { numRequest := numRequest
        fastest := st.minTime
        slowest := st.maxTime
        median := median
        times := printList st
        succeeded := succeededPercent st.successfulReqs numRequest
        errorCodes := printErrorCodes st trailing
        smallest := st.minBytes
        largest := st.maxBytes }

/-- The program `main` called as `--url <arg>` (`profile = false`) or as
`--url <arg> --profile <n>` (`profile = true`, `atoiResult = atoi(n)`).
`trailing` are the bytes behind `statusCode` when the error codes are printed.  What a
run without `--profile` prints (byte count and response) is not part of the result. -/
def run (profile : Bool) (arg : List Char) (atoiResult : Int) (net : Nat → Exchange)
    (stack : State) (trailing : List Char) : RunResult :=
  match buildRequest arg with
  | none => { termination := Termination.undefined, iterations := 0, fatal := none, report := none }
  | some (request, _) =>
    let numRequest := numRequestOf profile atoiResult
    match requestLoop profile request net numRequest.toNat 0 (initialState numRequest stack) with
    | Except.error (f, st) =>
      { termination := Termination.exit EXIT_FAILURE
        iterations := st.iterations, fatal := some f, report := none }
    | Except.ok st =>
      if profile then
        match report numRequest st trailing with
        | none =>
          { termination := Termination.undefined
            iterations := st.iterations, fatal := none, report := none }
        | some r =>
          { termination := Termination.exit EXIT_SUCCESS
            iterations := st.iterations, fatal := none, report := some r }
      else
        { termination := Termination.exit EXIT_SUCCESS
          iterations := st.iterations, fatal := none, report := none }

/-! ## The specification's words, for comparison with the code -/

/-- The host named by a `--url` argument: what stands before its first `/`. -/
def hostOf (arg : List Char) : List Char :=
  arg.takeWhile (fun c => c != '/')

/-- The path named by a `--url` argument: what starts at its first `/`, or the default
`/` when it has none. -/
def pathOf (arg : List Char) : List Char :=
  if '/' ∈ arg then arg.dropWhile (fun c => c != '/') else "/".toList

/-- The request text `GET <path> HTTP/1.1\r\nHost: <host>\r\nConnection: close\r\n\r\n`. -/
def wireRequest (path host : List Char) : List Char :=
  "GET ".toList ++ path ++ " HTTP/1.1\r\nHost: ".toList ++ host ++
    "\r\nConnection: close\r\n\r\n".toList

/-- The latency recorded for an exchange: stop timestamp minus start timestamp. -/
def elapsedOf (x : Exchange) : Int :=
  millis x.stopTime - millis x.startTime

/-- The byte count recorded for an exchange: the bytes delivered, at most `BUF_SIZE`. -/
def nreadOf (x : Exchange) : Int :=
  match x.received with
  | none => -1
  | some data => ((data.take BUF_SIZE).length : Int)

/-- An exchange on which the executor does not fail: the host resolves, some candidate
address accepts the connection, `send` reports `len` bytes, `recv` does not fail. -/
def succeeds (len : Nat) (x : Exchange) : Bool :=
  match x.resolved with
  | none => false
  | some result =>
    result.any (fun c => c.socketOk && c.connectOk) &&
      decide (toSizeT x.sendRet = (len : Int)) && x.received.isSome

/-- Minimum and maximum of a sequence of samples, tracked with two independent
comparisons per sample (`if v < min: min = v; if v > max: max = v`), the first sample
seeding both. -/
def independentMinMax : List Int → Option (Int × Int)
  | [] => none
  | v :: vs =>
    some (vs.foldl
      (fun acc w => (if w < acc.1 then w else acc.1, if w > acc.2 then w else acc.2)) (v, v))

/-- The pair `mn`, `mx` is the minimum and the maximum of the samples `f 0`, ...,
`f (k - 1)`: both are bounds, both are attained, and they are the values that two
independent comparisons per sample compute. -/
def Extremes (f : Nat → Int) (k : Nat) (mn mx : Int) : Prop :=
  (∀ j, j < k → mn ≤ f j ∧ f j ≤ mx) ∧ (∃ j, j < k ∧ mn = f j) ∧ (∃ j, j < k ∧ mx = f j) ∧
    independentMinMax ((List.range k).map f) = some (mn, mx)

/-- The state in which an iteration reaches the statistics block: the iteration is
counted and the received bytes are in `response`. -/
def afterRecv (data : List Char) (st : State) : State :=
  { st with iterations := st.iterations + 1, response := (recv st.response data).1 }

/-! ## Example inputs -/

/-- Some content of the locals that `main` leaves uninitialised. -/
def exampleStack : State :=
  { timeList := [], listSize := 0, errorCodeList := []
    successfulReqs := 77, minTime := 77, maxTime := 77, totalTime := 77
    minBytes := 77, maxBytes := 77
    response := fun _ => 'x', statusCode := ['x', 'x', 'x'], iterations := 0 }

/-- The request sent for `--url example.com`. -/
def exampleRequest : List Char :=
  "GET / HTTP/1.1\r\nHost: example.com\r\nConnection: close\r\n\r\n".toList

/-- An exchange without failure for `exampleRequest` (57 bytes handed to `send`): the
second candidate address accepts, the peer answers `response` after `ms` milliseconds,
and a NUL follows `statusCode` in memory. -/
def exampleExchange (response : String) (ms : Int) : Exchange :=
  { resolved := some [⟨true, false⟩, ⟨true, true⟩]
    startTime := ⟨1600000000, 250000⟩
    sendRet := 57
    received := some response.toList
    stopTime := ⟨1600000000, 250000 + 1000 * ms⟩
    trailing := [] }

/-- Two requests: the first is answered `404 Not Found`, the second `200 OK`. -/
def exampleOneFailure (j : Nat) : Exchange :=
  if j = 0 then exampleExchange "HTTP/1.1 404 Not Found\r\n\r\n" 5
  else exampleExchange "HTTP/1.1 200 OK\r\n\r\nhello" 3

/-- Two requests: the first is answered `404 Not Found`, the answer to the second
breaks off after the four bytes `HTTP`. -/
def exampleShortResponse (j : Nat) : Exchange :=
  if j = 0 then exampleExchange "HTTP/1.1 404 Not Found\r\n\r\n" 5
  else exampleExchange "HTTP" 3

/-- Requests of which the one with index 1 finds no address that accepts the
connection. -/
def exampleRefused (j : Nat) : Exchange :=
  if j = 1 then { exampleExchange "" 0 with resolved := some [⟨true, false⟩] }
  else exampleExchange "HTTP/1.1 200 OK\r\n\r\nhello" 10

/-! ## The sorted latency list -/

theorem insertCursor_eq (value : Int) (l : List Int) : ∀ passed : List Int,
    insertCursor value passed l =
      (passed ++ l.takeWhile (fun t => decide (t < value)),
        l.dropWhile (fun t => decide (t < value))) := by
  induction l with
  | nil => intro passed; simp [insertCursor]
  | cons t next ih =>
    intro passed
    by_cases h : t < value
    · simp [insertCursor, h, ih]
    · simp [insertCursor, h]

theorem insertNodeSorted_timeList (value : Int) (g : Globals) :
    (insertNodeSorted value g).timeList = g.timeList.orderedInsert (fun a b => a ≤ b) value := by
  have h := insertCursor_eq value g.timeList []
  simp only [insertNodeSorted, h, List.nil_append]
  rw [List.orderedInsert_eq_take_drop]
  have e : (fun b : Int => decide (¬ value ≤ b)) = (fun t => decide (t < value)) := by
    funext b; simp
  rw [e]
  split_ifs with hp
  · rw [hp]; rfl
  · rfl

theorem insertNodeSorted_listSize (value : Int) (g : Globals) :
    (insertNodeSorted value g).listSize = g.listSize + 1 := by
  simp [insertNodeSorted]

theorem insertNodeSorted_errorCodeList (value : Int) (g : Globals) :
    (insertNodeSorted value g).errorCodeList = g.errorCodeList := by
  simp [insertNodeSorted]

theorem insertAll_append (vs ws : List Int) (g : Globals) :
    insertAll (vs ++ ws) g = insertAll ws (insertAll vs g) := by
  simp [insertAll, List.foldl_append]

theorem insertAll_sorted (vs : List Int) : ∀ g : Globals,
    g.timeList.Sorted (fun a b => a ≤ b) →
      (insertAll vs g).timeList.Sorted (fun a b => a ≤ b) := by
  induction vs with
  | nil => intro g hg; simpa [insertAll] using hg
  | cons v vs ih =>
    intro g hg
    have : insertAll (v :: vs) g = insertAll vs (insertNodeSorted v g) := rfl
    rw [this]
    apply ih
    rw [insertNodeSorted_timeList]
    exact hg.orderedInsert v _

theorem insertAll_length (vs : List Int) : ∀ g : Globals,
    (insertAll vs g).timeList.length = g.timeList.length + vs.length ∧
      (insertAll vs g).listSize = g.listSize + vs.length ∧
      (insertAll vs g).errorCodeList = g.errorCodeList := by
  induction vs with
  | nil => intro g; simp [insertAll]
  | cons v vs ih =>
    intro g
    have : insertAll (v :: vs) g = insertAll vs (insertNodeSorted v g) := rfl
    rw [this]
    obtain ⟨h1, h2, h3⟩ := ih (insertNodeSorted v g)
    refine ⟨?_, ?_, ?_⟩
    · rw [h1, insertNodeSorted_timeList, List.orderedInsert_length, List.length_cons]; omega
    · rw [h2, insertNodeSorted_listSize, List.length_cons]; push_cast; omega
    · rw [h3, insertNodeSorted_errorCodeList]

theorem insertAll_perm (vs : List Int) : ∀ g : Globals,
    (insertAll vs g).timeList.Perm (g.timeList ++ vs) := by
  induction vs with
  | nil => intro g; simp [insertAll]
  | cons v vs ih =>
    intro g
    have : insertAll (v :: vs) g = insertAll vs (insertNodeSorted v g) := rfl
    rw [this]
    refine (ih (insertNodeSorted v g)).trans ?_
    rw [insertNodeSorted_timeList]
    have h1 : (List.orderedInsert (fun a b => a ≤ b) v g.timeList).Perm (v :: g.timeList) :=
      List.perm_orderedInsert _ v g.timeList
    have h2 : (List.orderedInsert (fun a b => a ≤ b) v g.timeList ++ vs).Perm
        ((v :: g.timeList) ++ vs) := h1.append_right vs
    refine h2.trans ?_
    simpa using (@List.perm_middle Int v g.timeList vs).symm

/-- Claim C1: starting from the empty time list, after each insertion of a sequence of
values handed one by one to `insertNodeSorted` (after the first `k` of them, for every
`k`) the time list is in ascending, non-decreasing order; equal values are allowed. -/
theorem sorted_after_every_insertion (vs : List Int) (k : Nat) :
    (insertAll (vs.take k) Globals.init).timeList.Sorted (fun a b => a ≤ b) :=
  insertAll_sorted _ _ (by simp [Globals.init])

/-- Claim C10: `insertNodeSorted v` turns the time list into a permutation of the old
list with `v` added, one element longer, and adds exactly one to `listSize`; hence after
the insertion of `vs` into the empty state `listSize` and the length of the list both
equal the number of insertions, and the list holds exactly the inserted values. -/
theorem insertion_loses_and_invents_nothing (g : Globals) (v : Int) (vs : List Int) :
    (insertNodeSorted v g).timeList.Perm (v :: g.timeList) ∧
      (insertNodeSorted v g).timeList.length = g.timeList.length + 1 ∧
      (insertNodeSorted v g).listSize = g.listSize + 1 ∧
      (insertAll vs Globals.init).listSize = (vs.length : Int) ∧
      (insertAll vs Globals.init).timeList.length = vs.length ∧
      (insertAll vs Globals.init).timeList.Perm vs := by
  obtain ⟨h1, h2, _⟩ := insertAll_length vs Globals.init
  refine ⟨?_, ?_, insertNodeSorted_listSize v g, ?_, ?_, ?_⟩
  · rw [insertNodeSorted_timeList]; exact List.perm_orderedInsert _ v g.timeList
  · rw [insertNodeSorted_timeList, List.orderedInsert_length]
  · simpa [Globals.init] using h2
  · simpa [Globals.init] using h1
  · simpa [Globals.init] using insertAll_perm vs Globals.init
theorem medianCursor_lt (half : Int) (l : List Int) : ∀ position : Int,
    medianCursor (fun p => decide (p < half)) position l = l.drop (half - position).toNat := by
  induction l with
  | nil => intro position; simp [medianCursor]
  | cons t next ih =>
    intro position
    by_cases h : position < half
    · have e : (half - position).toNat = (half - (position + 1)).toNat + 1 := by omega
      simp [medianCursor, h, ih, e]
    · have e : (half - position).toNat = 0 := by omega
      simp [medianCursor, h, e]

theorem medianCursor_le (half : Int) (l : List Int) : ∀ position : Int,
    medianCursor (fun p => decide (p ≤ half)) position l =
      l.drop (half + 1 - position).toNat := by
  induction l with
  | nil => intro position; simp [medianCursor]
  | cons t next ih =>
    intro position
    by_cases h : position ≤ half
    · have e : (half + 1 - position).toNat = (half + 1 - (position + 1)).toNat + 1 := by omega
      simp [medianCursor, h, ih, e]
    · have e : (half + 1 - position).toNat = 0 := by omega
      simp [medianCursor, h, e]

theorem toFloat_magnitude (m : Nat) (h : m ≤ 16777216) :
    (if 2 ^ ulpExp m < 2 * (m % 2 ^ ulpExp m) ∨
        (2 * (m % 2 ^ ulpExp m) = 2 ^ ulpExp m ∧ m / 2 ^ ulpExp m % 2 = 1)
      then m / 2 ^ ulpExp m + 1 else m / 2 ^ ulpExp m) * 2 ^ ulpExp m = m := by
  rcases Nat.lt_or_ge m 16777216 with h1 | h1
  · have e : ulpExp m = 0 := by
      simp [ulpExp, ulpSearch, h1]
    simp [e, Nat.mod_one]
  · have e : m = 16777216 := le_antisymm h h1
    subst e
    decide

theorem toFloat_exact (z : Int) (h : z.natAbs ≤ 16777216) : toFloat z = z := by
  show Int.sign z * ((_ : Nat) : Int) = z
  rw [toFloat_magnitude _ h]
  exact Int.sign_mul_natAbs z

theorem wrapLong_exact (z : Int) (h1 : -9223372036854775808 ≤ z) (h2 : z < 9223372036854775808) :
    wrapLong z = z := by
  unfold wrapLong; omega

theorem drop_eq_cons_getD (l : List Int) (k : Nat) (h : k < l.length) :
    l.drop k = l.getD k 0 :: l.drop (k + 1) := by
  rw [List.drop_eq_getElem_cons h]
  simp [List.getD, List.getElem?_eq_getElem h]

/-- The value of `findMedian` whenever `listSize` is the length of a non-empty list. -/
theorem findMedian_eq (g : Globals) (hsize : g.listSize = (g.timeList.length : Int))
    (hne : g.timeList ≠ []) :
    findMedian g =
      if g.timeList.length % 2 = 1 then
        some ((toFloat (g.timeList.getD (g.timeList.length / 2) 0) : Int) : Rat)
      else
        some ((toFloat (wrapLong (g.timeList.getD (g.timeList.length / 2 - 1) 0 +
          g.timeList.getD (g.timeList.length / 2) 0)) : Int) / 2 : Rat) := by
  have hpos : 0 < g.timeList.length := List.length_pos.mpr hne
  have hdiv : Int.tdiv g.listSize 2 = ((g.timeList.length / 2 : Nat) : Int) := by
    rw [hsize]; simp [Int.tdiv]
  have hmod : Int.tmod g.listSize 2 = ((g.timeList.length % 2 : Nat) : Int) := by
    rw [hsize]; simp [Int.tmod]
  unfold findMedian
  rw [hdiv, hmod, medianCursor_lt, medianCursor_le]
  rcases Nat.mod_two_eq_zero_or_one g.timeList.length with h0 | h1
  · have k1 : g.timeList.length / 2 - 1 < g.timeList.length := by omega
    have k2 : g.timeList.length / 2 - 1 + 1 < g.timeList.length := by omega
    have e1 : (((g.timeList.length / 2 : Nat) : Int) - 1).toNat = g.timeList.length / 2 - 1 := by
      omega
    have e2 : g.timeList.length / 2 - 1 + 1 = g.timeList.length / 2 := by omega
    rw [h0, e1, drop_eq_cons_getD _ _ k1, drop_eq_cons_getD _ _ k2, e2]
    simp
  · have k1 : g.timeList.length / 2 < g.timeList.length := by omega
    have e1 : (((g.timeList.length / 2 : Nat) : Int) + 1 - 1).toNat = g.timeList.length / 2 := by
      omega
    rw [h1, e1, drop_eq_cons_getD _ _ k1]
    simp
theorem insertAll_findMedian (vs : List Int) (hne : vs ≠ []) :
    findMedian (insertAll vs Globals.init) =
      if vs.length % 2 = 1 then
        some ((toFloat ((insertAll vs Globals.init).timeList.getD (vs.length / 2) 0) : Int) : Rat)
      else
        some ((toFloat (wrapLong ((insertAll vs Globals.init).timeList.getD (vs.length / 2 - 1) 0 +
          (insertAll vs Globals.init).timeList.getD (vs.length / 2) 0)) : Int) / 2 : Rat) := by
  obtain ⟨h1, h2, _⟩ := insertAll_length vs Globals.init
  have hlen : (insertAll vs Globals.init).timeList.length = vs.length := by
    simpa [Globals.init] using h1
  have hsize : (insertAll vs Globals.init).listSize =
      ((insertAll vs Globals.init).timeList.length : Int) := by
    rw [hlen]; simpa [Globals.init] using h2
  have hne2 : (insertAll vs Globals.init).timeList ≠ [] := by
    intro h
    rw [h] at hlen
    exact hne (List.length_eq_zero.mp hlen.symm)
  rw [findMedian_eq _ hsize hne2, hlen]

/-- Claim C2, amended: for a non-empty sequence `vs` inserted into the empty state
(so `listSize = n = vs.length`), `findMedian` returns the `float` conversion of the
element at index `n / 2` when `n` is odd, and half of the `float` conversion of the
64-bit sum of the elements at indices `n / 2 - 1` and `n / 2` when `n` is even.  The
conversion is exact, so that the result is that element, respectively the untruncated
average, whenever the element, respectively the sum, has absolute value at most
`2^24 = 16777216`.  It returns 20 for `[10, 20, 30]` and 25 for `[10, 20, 30, 40]`. -/
theorem median_convention (vs : List Int) (hne : vs ≠ []) :
    (vs.length % 2 = 1 →
      findMedian (insertAll vs Globals.init) =
          some ((toFloat ((insertAll vs Globals.init).timeList.getD (vs.length / 2) 0) : Int) : Rat) ∧
        (|(insertAll vs Globals.init).timeList.getD (vs.length / 2) 0| ≤ 16777216 →
          findMedian (insertAll vs Globals.init) =
            some (((insertAll vs Globals.init).timeList.getD (vs.length / 2) 0 : Int) : Rat))) ∧
    (vs.length % 2 = 0 →
      findMedian (insertAll vs Globals.init) =
          some ((toFloat (wrapLong ((insertAll vs Globals.init).timeList.getD (vs.length / 2 - 1) 0 +
            (insertAll vs Globals.init).timeList.getD (vs.length / 2) 0)) : Int) / 2 : Rat) ∧
        (|(insertAll vs Globals.init).timeList.getD (vs.length / 2 - 1) 0 +
            (insertAll vs Globals.init).timeList.getD (vs.length / 2) 0| ≤ 16777216 →
          findMedian (insertAll vs Globals.init) =
            some ((((insertAll vs Globals.init).timeList.getD (vs.length / 2 - 1) 0 +
              (insertAll vs Globals.init).timeList.getD (vs.length / 2) 0 : Int) : Rat) / 2))) ∧
    findMedian (insertAll [10, 20, 30] Globals.init) = some 20 ∧
    findMedian (insertAll [10, 20, 30, 40] Globals.init) = some 25 := by
  have key := insertAll_findMedian vs hne
  refine ⟨?_, ?_, ?_, ?_⟩
  · intro hodd
    rw [if_pos hodd] at key
    refine ⟨key, fun hb => ?_⟩
    rw [key, toFloat_exact]
    rw [Int.abs_eq_natAbs] at hb
    exact_mod_cast hb
  · intro hev
    rw [if_neg (by omega)] at key
    refine ⟨key, fun hb => ?_⟩
    rw [key, wrapLong_exact, toFloat_exact]
    · rw [Int.abs_eq_natAbs] at hb
      exact_mod_cast hb
    · have := abs_le.mp hb; omega
    · have := abs_le.mp hb; omega
  · rw [insertAll_findMedian _ (by decide)]
    have e : toFloat ((insertAll [10, 20, 30] Globals.init).timeList.getD (([10, 20, 30] : List Int).length / 2) 0)
        = 20 := by decide
    rw [if_pos (by decide), e]
    norm_num
  · rw [insertAll_findMedian _ (by decide)]
    have e : toFloat (wrapLong ((insertAll [10, 20, 30, 40] Globals.init).timeList.getD
        (([10, 20, 30, 40] : List Int).length / 2 - 1) 0 +
          (insertAll [10, 20, 30, 40] Globals.init).timeList.getD (([10, 20, 30, 40] : List Int).length / 2) 0))
        = 50 := by decide
    rw [if_neg (by decide), e]
    norm_num

theorem median_convention_witness :
    ([5, 1, 16777216] : List Int) ≠ [] ∧
      ([5, 1, 16777216] : List Int).length % 2 = 1 ∧
      findMedian (insertAll [5, 1, 16777216] Globals.init) = some 5 ∧
      ([7, 1, 4, 16777000] : List Int) ≠ [] ∧
      ([7, 1, 4, 16777000] : List Int).length % 2 = 0 ∧
      findMedian (insertAll [7, 1, 4, 16777000] Globals.init) = some (11 / 2) := by
  have h := median_convention [5, 1, 16777216] (by decide)
  have h' := median_convention [7, 1, 4, 16777000] (by decide)
  refine ⟨by decide, by decide, ?_, by decide, by decide, ?_⟩
  · have h1 := (h.1 (by decide)).2
    have e : (insertAll [5, 1, 16777216] Globals.init).timeList.getD
        (([5, 1, 16777216] : List Int).length / 2) 0 = 5 := by decide
    rw [e] at h1
    simpa using h1 (by norm_num)
  · have h1 := (h'.2.1 (by decide)).2
    have e : (insertAll [7, 1, 4, 16777000] Globals.init).timeList.getD
        (([7, 1, 4, 16777000] : List Int).length / 2 - 1) 0 +
        (insertAll [7, 1, 4, 16777000] Globals.init).timeList.getD
          (([7, 1, 4, 16777000] : List Int).length / 2) 0 = 11 := by decide
    rw [e] at h1
    simpa using h1 (by norm_num)

/-- Claim C2 fails as stated: after the single insertion of 16777217 (`n = 1`)
`findMedian` returns 16777216, not the element at index 0; after the insertions of
16777216 and 16777217 (`n = 2`) it returns 16777216, not their average 16777216.5.
A `float` has 24 significant bits. -/
theorem median_convention_counterexample :
    (insertAll [16777217] Globals.init).timeList = [16777217] ∧
      (insertAll [16777217] Globals.init).listSize = 1 ∧
      findMedian (insertAll [16777217] Globals.init) = some 16777216 ∧
      findMedian (insertAll [16777217] Globals.init) ≠
        some (((insertAll [16777217] Globals.init).timeList.getD (1 / 2) 0 : Int) : Rat) ∧
      (insertAll [16777216, 16777217] Globals.init).timeList = [16777216, 16777217] ∧
      findMedian (insertAll [16777216, 16777217] Globals.init) = some 16777216 ∧
      findMedian (insertAll [16777216, 16777217] Globals.init) ≠
        some ((((insertAll [16777216, 16777217] Globals.init).timeList.getD (2 / 2 - 1) 0 +
          (insertAll [16777216, 16777217] Globals.init).timeList.getD (2 / 2) 0 : Int) : Rat) / 2) := by
  have m1 : findMedian (insertAll [16777217] Globals.init) = some 16777216 := by
    rw [insertAll_findMedian _ (by decide)]
    have e : toFloat ((insertAll [16777217] Globals.init).timeList.getD (([16777217] : List Int).length / 2) 0)
        = 16777216 := by decide
    rw [if_pos (by decide), e]
    norm_num
  have m2 : findMedian (insertAll [16777216, 16777217] Globals.init) = some 16777216 := by
    rw [insertAll_findMedian _ (by decide)]
    have e : toFloat (wrapLong ((insertAll [16777216, 16777217] Globals.init).timeList.getD
        (([16777216, 16777217] : List Int).length / 2 - 1) 0 +
          (insertAll [16777216, 16777217] Globals.init).timeList.getD
            (([16777216, 16777217] : List Int).length / 2) 0))
        = 33554432 := by decide
    rw [if_neg (by decide), e]
    norm_num
  have g1 : (insertAll [16777217] Globals.init).timeList.getD (1 / 2) 0 = 16777217 := by decide
  have g2 : (insertAll [16777216, 16777217] Globals.init).timeList.getD (2 / 2 - 1) 0 +
      (insertAll [16777216, 16777217] Globals.init).timeList.getD (2 / 2) 0 = 33554433 := by decide
  refine ⟨by decide, by decide, m1, ?_, by decide, m2, ?_⟩
  · rw [m1, g1]; norm_num
  · rw [m2, g2]; norm_num
/-! ## Request framing -/

theorem cstr_append_nul (a b : List Char) (h : NUL ∉ a) : cstr (a ++ NUL :: b) = a := by
  induction a with
  | nil => simp [cstr]
  | cons x xs ih =>
    have hx : (x != NUL) = true := by
      simp only [bne_iff_ne]
      exact fun e => h (by simp [e])
    have hxs : NUL ∉ xs := fun e => h (by simp [e])
    have := ih hxs
    simp only [cstr] at this ⊢
    rw [List.cons_append, List.takeWhile_cons, hx]
    simp [this]

theorem strchr_eq (c : Char) (arg : List Char) :
    strchr arg c =
      if c ∈ arg then some (arg.takeWhile (fun x => x != c)).length else none := by
  induction arg with
  | nil => simp [strchr]
  | cons x xs ih =>
    by_cases hx : x = c
    · simp [strchr, hx]
    · have hx2 : ¬ c = x := fun e => hx e.symm
      by_cases hm : c ∈ xs
      · simp [strchr, hx, hx2, ih, hm]
      · simp [strchr, hx, hx2, ih, hm]

theorem set_takeWhile_length (c d : Char) (arg : List Char) (h : c ∈ arg) :
    ∃ rest, arg.dropWhile (fun x => x != c) = c :: rest ∧
      arg.set (arg.takeWhile (fun x => x != c)).length d =
        arg.takeWhile (fun x => x != c) ++ d :: rest := by
  induction arg with
  | nil => simp at h
  | cons x xs ih =>
    by_cases hx : x = c
    · subst hx; exact ⟨xs, by simp⟩
    · have hm : c ∈ xs := by
        rcases List.mem_cons.mp h with e | e
        · exact absurd e.symm hx
        · exact e
      obtain ⟨rest, h1, h2⟩ := ih hm
      exact ⟨rest, by simp [hx, h1], by simp [hx, h2]⟩

theorem drop_length_takeWhile (p : Char → Bool) (l : List Char) :
    l.drop (l.takeWhile p).length = l.dropWhile p := by
  induction l with
  | nil => rfl
  | cons x xs ih =>
    cases h : p x
    · simp [List.takeWhile_cons, List.dropWhile_cons, h]
    · simp [List.takeWhile_cons, List.dropWhile_cons, h, ih]

theorem strcat_fits (cap : Nat) (dest src : List Char) (h : dest.length + src.length + 1 ≤ cap) :
    strcat cap dest src = some (dest ++ src) := by
  simp [strcat, h]

theorem buildRequest_steps (path host : List Char)
    (hfit : 4 + path.length + 17 + host.length + 23 < BUF_SIZE) :
    (do
      let request ← strcat BUF_SIZE "GET ".toList path
      let request ← strcat BUF_SIZE request " HTTP/1.1\r\nHost: ".toList
      let request ← strcat BUF_SIZE request host
      let request ← strcat BUF_SIZE request "\r\nConnection: close\r\n\r\n".toList
      pure (request, host)) = some (wireRequest path host, host) := by
  have f1 : strcat BUF_SIZE "GET ".toList path = some ("GET ".toList ++ path) :=
    strcat_fits _ _ _ (by simp; omega)
  have f2 : strcat BUF_SIZE ("GET ".toList ++ path) " HTTP/1.1\r\nHost: ".toList =
      some ("GET ".toList ++ path ++ " HTTP/1.1\r\nHost: ".toList) :=
    strcat_fits _ _ _ (by simp; omega)
  have f3 : strcat BUF_SIZE ("GET ".toList ++ path ++ " HTTP/1.1\r\nHost: ".toList) host =
      some ("GET ".toList ++ path ++ " HTTP/1.1\r\nHost: ".toList ++ host) :=
    strcat_fits _ _ _ (by simp; omega)
  have f4 : strcat BUF_SIZE ("GET ".toList ++ path ++ " HTTP/1.1\r\nHost: ".toList ++ host)
      "\r\nConnection: close\r\n\r\n".toList = some (wireRequest path host) :=
    strcat_fits _ _ _ (by simp; omega)
  rw [f1]
  simp only [Option.some_bind, Option.bind_eq_bind]
  rw [f2]
  simp only [Option.some_bind, Option.bind_eq_bind]
  rw [f3]
  simp only [Option.some_bind, Option.bind_eq_bind]
  rw [f4]
  rfl

theorem buildRequest_eq (arg : List Char) (hnul : NUL ∉ arg)
    (hfit : (wireRequest (pathOf arg) (hostOf arg)).length < BUF_SIZE) :
    buildRequest arg = some (wireRequest (pathOf arg) (hostOf arg), hostOf arg) := by
  have hlen : (wireRequest (pathOf arg) (hostOf arg)).length =
      4 + (pathOf arg).length + 17 + (hostOf arg).length + 23 := by
    simp [wireRequest]; omega
  rw [hlen] at hfit
  have steps := buildRequest_steps (pathOf arg) (hostOf arg) hfit
  have hp : strcat BUF_SIZE "GET ".toList (pathOf arg) = some ("GET ".toList ++ pathOf arg) :=
    strcat_fits _ _ _ (by simp; omega)
  rw [hp] at steps
  unfold buildRequest
  rw [strchr_eq]
  by_cases hm : '/' ∈ arg
  · obtain ⟨rest, h1, h2⟩ := set_takeWhile_length '/' NUL arg hm
    have hhost : cstr (arg.set (arg.takeWhile (fun x => x != '/')).length NUL ++ [NUL]) =
        hostOf arg := by
      rw [h2, List.append_assoc, List.cons_append]
      apply cstr_append_nul
      intro hc
      exact hnul ((List.takeWhile_sublist _).subset hc)
    have hpath : arg.drop (arg.takeWhile (fun x => x != '/')).length = pathOf arg := by
      simp only [pathOf, if_pos hm]
      exact drop_length_takeWhile _ _
    rw [if_pos hm]
    simp only [hhost, hpath, hp, Option.some_bind, Option.bind_eq_bind, Option.pure_def]
    simpa only [Option.some_bind, Option.bind_eq_bind, Option.pure_def] using steps
  · have hhost : hostOf arg = arg := by
      simp only [hostOf]
      rw [List.takeWhile_eq_self_iff]
      intro x hx
      simp only [bne_iff_ne, ne_eq]
      rintro rfl
      exact hm hx
    have hpath : pathOf arg = "/".toList := by
      simp only [pathOf, if_neg hm]
    rw [if_neg hm]
    rw [hhost, hpath] at steps
    rw [hpath] at hp
    simp only [hp, Option.some_bind, Option.bind_eq_bind, Option.pure_def]
    rw [hhost, hpath]
    simpa only [Option.some_bind, Option.bind_eq_bind, Option.pure_def] using steps
theorem hostOf_pathOf (arg : List Char) :
    '/' ∉ hostOf arg ∧ (pathOf arg).head? = some '/' ∧
      ('/' ∈ arg → hostOf arg ++ pathOf arg = arg) ∧
      ('/' ∉ arg → hostOf arg = arg ∧ pathOf arg = "/".toList) := by
  refine ⟨?_, ?_, ?_, ?_⟩
  · intro h
    have := List.mem_takeWhile_imp h
    simp at this
  · by_cases hm : '/' ∈ arg
    · obtain ⟨rest, h1, _⟩ := set_takeWhile_length '/' NUL arg hm
      simp [pathOf, hm, h1]
    · simp [pathOf, hm]
  · intro hm
    simp only [hostOf, pathOf, if_pos hm]
    exact List.takeWhile_append_dropWhile _ _
  · intro hm
    refine ⟨?_, by simp only [pathOf, if_neg hm]⟩
    simp only [hostOf]
    rw [List.takeWhile_eq_self_iff]
    intro x hx
    simp only [bne_iff_ne, ne_eq]
    rintro rfl
    exact hm hx

/-- Claim C8: for a `--url` argument `arg` (a C string, so without NUL) whose request
fits the buffer `request`, the code builds the request
`"GET " ++ path ++ " HTTP/1.1\r\nHost: " ++ host ++ "\r\nConnection: close\r\n\r\n"` and the
host `host`, where `host` is the part of `arg` before its first `/` (all of `arg` when
there is none, and never containing a `/`) and `path` is the part of `arg` from its
first `/` on, or the default `/`; the path always starts with `/`. -/
theorem request_building (arg : List Char) (hnul : NUL ∉ arg)
    (hfit : (wireRequest (pathOf arg) (hostOf arg)).length < BUF_SIZE) :
    buildRequest arg = some (wireRequest (pathOf arg) (hostOf arg), hostOf arg) ∧
      '/' ∉ hostOf arg ∧
      (pathOf arg).head? = some '/' ∧
      ('/' ∈ arg → hostOf arg ++ pathOf arg = arg) ∧
      ('/' ∉ arg → hostOf arg = arg ∧ pathOf arg = "/".toList) :=
  ⟨buildRequest_eq arg hnul hfit, hostOf_pathOf arg⟩

theorem request_building_witness :
    NUL ∉ "example.com/a/b".toList ∧
      (wireRequest (pathOf "example.com/a/b".toList) (hostOf "example.com/a/b".toList)).length
        < BUF_SIZE ∧
      buildRequest "example.com/a/b".toList =
        some ("GET /a/b HTTP/1.1\r\nHost: example.com\r\nConnection: close\r\n\r\n".toList,
          "example.com".toList) ∧
      '/' ∈ "example.com/a/b".toList ∧
      hostOf "example.com/a/b".toList ++ pathOf "example.com/a/b".toList =
        "example.com/a/b".toList ∧
      '/' ∉ "example.com".toList ∧
      hostOf "example.com".toList = "example.com".toList ∧
      pathOf "example.com".toList = "/".toList := by
  have h := request_building "example.com/a/b".toList (by decide) (by decide)
  have h' := request_building "example.com".toList (by decide) (by decide)
  refine ⟨by decide, by decide, ?_, by decide, h.2.2.2.1 (by decide), by decide,
    (h'.2.2.2.2 (by decide)).1, (h'.2.2.2.2 (by decide)).2⟩
  rw [h.1]
  decide

theorem wireRequest_no_nul (arg : List Char) (hnul : NUL ∉ arg) :
    NUL ∉ wireRequest (pathOf arg) (hostOf arg) := by
  have hhost : NUL ∉ hostOf arg := fun h => hnul ((List.takeWhile_sublist _).subset h)
  have hpath : NUL ∉ pathOf arg := by
    by_cases hm : '/' ∈ arg
    · simp only [pathOf, if_pos hm]
      exact fun h => hnul ((List.dropWhile_suffix _).subset h)
    · simp only [pathOf, if_neg hm]
      decide
  have c1 : NUL ∉ "GET ".toList := by decide
  have c2 : NUL ∉ " HTTP/1.1\r\nHost: ".toList := by decide
  have c3 : NUL ∉ "\r\nConnection: close\r\n\r\n".toList := by decide
  simp only [wireRequest, List.mem_append, not_or]
  exact ⟨⟨⟨⟨c1, hpath⟩, c2⟩, hhost⟩, c3⟩

theorem sendBytes_eq (request : List Char) (hnul : NUL ∉ request)
    (hfit : request.length < BUF_SIZE) :
    sendLen request = request.length + 1 ∧ sendBytes request = request ++ [NUL] := by
  obtain ⟨n, hn⟩ : ∃ n, BUF_SIZE - request.length = n + 1 := ⟨BUF_SIZE - request.length - 1, by omega⟩
  have hmem : requestMem request = request ++ NUL :: List.replicate n NUL := by
    simp [requestMem, hn, List.replicate_succ]
  have hlen : sendLen request = request.length + 1 := by
    simp [sendLen, strlen, hmem, cstr_append_nul _ _ hnul]
  refine ⟨hlen, ?_⟩
  simp only [sendBytes, hlen, hmem]
  rw [List.take_append_eq_append_take]
  simp

theorem toSizeT_ne (ret : Int) (len : Nat) (hlen : len ≤ BUF_SIZE)
    (hlo : -9223372036854775808 ≤ ret) (hhi : ret < 9223372036854775808) :
    toSizeT ret ≠ (len : Int) ↔ ret ≠ (len : Int) := by
  simp only [toSizeT, BUF_SIZE] at *
  omega

/-- Claim C7, amended: the bytes handed to `send` (the buffer `request` with the length
`len = strlen(request) + 1`) are the text
`GET <path> HTTP/1.1\r\nHost: <host>\r\nConnection: close\r\n\r\n` followed by one
NUL byte, the terminator of the string, and nothing else; and once the host is resolved
and connected, the iteration exits as a send failure exactly when `send` returns a
number other than `len`. -/
theorem wire_bytes (arg : List Char) (hnul : NUL ∉ arg)
    (hfit : (wireRequest (pathOf arg) (hostOf arg)).length < BUF_SIZE) :
    ∃ request host, buildRequest arg = some (request, host) ∧
      request = wireRequest (pathOf arg) (hostOf arg) ∧
      sendBytes request = wireRequest (pathOf arg) (hostOf arg) ++ [NUL] ∧
      sendLen request = (wireRequest (pathOf arg) (hostOf arg)).length + 1 ∧
      ∀ (profile : Bool) (i : Int) (x : Exchange) (st : State) (result : List Candidate)
        (rp : Candidate),
        x.resolved = some result → connectLoop result = some rp →
        -9223372036854775808 ≤ x.sendRet → x.sendRet < 9223372036854775808 →
        ((∃ st', iteration profile request i x st = Except.error (Fatal.send, st')) ↔
          x.sendRet ≠ (sendLen request : Int)) := by
  obtain ⟨hl, hs⟩ := sendBytes_eq _ (wireRequest_no_nul arg hnul) hfit
  refine ⟨_, _, buildRequest_eq arg hnul hfit, rfl, hs, hl, ?_⟩
  intro profile i x st result rp hres hconn hlo hhi
  have hne := toSizeT_ne x.sendRet (sendLen (wireRequest (pathOf arg) (hostOf arg)))
    (by rw [hl]; omega) hlo hhi
  rw [← hne]
  unfold iteration
  simp only [hres, hconn]
  by_cases hsend : toSizeT x.sendRet = (sendLen (wireRequest (pathOf arg) (hostOf arg)) : Int)
  · simp only [hsend, ne_eq, not_true_eq_false, if_false, iff_false, not_exists]
    intro st'
    cases x.received with
    | none => simp
    | some data =>
      simp only []
      split_ifs <;> simp
  · simp [hsend]
/-! ## The request loop -/

theorem connectLoop_isSome (result : List Candidate) :
    (connectLoop result).isSome = result.any (fun c => c.socketOk && c.connectOk) := by
  induction result with
  | nil => rfl
  | cons rp next ih =>
    cases hs : rp.socketOk <;> cases hc : rp.connectOk <;> simp [connectLoop, hs, hc, ih]

theorem iteration_of_succeeds (profile : Bool) (request : List Char) (i : Int) (x : Exchange)
    (st : State) (h : succeeds (sendLen request) x = true) :
    ∃ data, x.received = some data ∧
      iteration profile request i x st =
        Except.ok (if profile then
          accumulate i (millis x.startTime) (millis x.stopTime) (nreadOf x) x.trailing
            (afterRecv data st)
          else afterRecv data st) := by
  unfold succeeds at h
  cases hres : x.resolved with
  | none => simp [hres] at h
  | some result =>
    simp only [hres, Bool.and_eq_true, decide_eq_true_eq] at h
    obtain ⟨⟨hany, hsend⟩, hrecv⟩ := h
    rw [← connectLoop_isSome] at hany
    obtain ⟨rp, hrp⟩ := Option.isSome_iff_exists.mp hany
    obtain ⟨data, hdata⟩ := Option.isSome_iff_exists.mp hrecv
    refine ⟨data, hdata, ?_⟩
    unfold iteration
    simp only [hres, hrp, hsend, hdata, nreadOf, afterRecv, recv]
    cases profile <;> simp

theorem iteration_of_not_succeeds (profile : Bool) (request : List Char) (i : Int)
    (x : Exchange) (st : State) (h : succeeds (sendLen request) x = false) :
    ∃ f, iteration profile request i x st =
      Except.error (f, { st with iterations := st.iterations + 1 }) := by
  unfold succeeds at h
  unfold iteration
  cases hres : x.resolved with
  | none => exact ⟨Fatal.getaddrinfo, rfl⟩
  | some result =>
    simp only [hres] at h ⊢
    cases hrp : connectLoop result with
    | none => exact ⟨Fatal.connect, rfl⟩
    | some rp =>
      have hany : result.any (fun c => c.socketOk && c.connectOk) = true := by
        rw [← connectLoop_isSome, hrp]; rfl
      by_cases hsend : toSizeT x.sendRet = (sendLen request : Int)
      · cases hdata : x.received with
        | none => exact ⟨Fatal.recv, by simp [hsend]⟩
        | some data => simp [hany, hsend, hdata] at h
      · exact ⟨Fatal.send, by simp [hsend]⟩

theorem classify_fields (trailing : List Char) (st : State) :
    (classify trailing st).minTime = st.minTime ∧
      (classify trailing st).maxTime = st.maxTime ∧
      (classify trailing st).minBytes = st.minBytes ∧
      (classify trailing st).maxBytes = st.maxBytes ∧
      (classify trailing st).timeList = st.timeList ∧
      (classify trailing st).listSize = st.listSize ∧
      (classify trailing st).iterations = st.iterations ∧
      (classify trailing st).response = st.response ∧
      (classify trailing st).statusCode = extractStatusCode st.response := by
  unfold classify
  simp only []
  split_ifs
  · refine ⟨rfl, rfl, rfl, rfl, ?_, ?_, rfl, rfl, rfl⟩ <;>
      (unfold insertError; cases st.errorCodeList <;> rfl)
  · exact ⟨rfl, rfl, rfl, rfl, rfl, rfl, rfl, rfl, rfl⟩

theorem track_fields (i elapsed nread : Int) (st : State) :
    (track i elapsed nread st).minTime =
        (if i = 0 then elapsed else if elapsed < st.minTime then elapsed else st.minTime) ∧
      (track i elapsed nread st).maxTime =
        (if i = 0 then elapsed
          else if elapsed < st.minTime then st.maxTime
          else if elapsed > st.maxTime then elapsed else st.maxTime) ∧
      (track i elapsed nread st).minBytes =
        (if i = 0 then nread else if nread < st.minBytes then nread else st.minBytes) ∧
      (track i elapsed nread st).maxBytes =
        (if i = 0 then nread
          else if nread < st.minBytes then st.maxBytes
          else if nread > st.maxBytes then nread else st.maxBytes) ∧
      (track i elapsed nread st).toGlobals = st.toGlobals ∧
      (track i elapsed nread st).iterations = st.iterations ∧
      (track i elapsed nread st).successfulReqs = st.successfulReqs ∧
      (track i elapsed nread st).statusCode = st.statusCode ∧
      (track i elapsed nread st).response = st.response := by
  unfold track
  by_cases hi : i = 0
  · simp [hi]
  · simp only [hi, if_false]
    by_cases h1 : elapsed < st.minTime <;> by_cases h2 : elapsed > st.maxTime <;>
      by_cases h3 : nread < st.minBytes <;> by_cases h4 : nread > st.maxBytes <;>
      simp [h1, h2, h3, h4]

theorem accumulate_minmax (i start stop nread : Int) (trailing : List Char) (st : State) :
    (accumulate i start stop nread trailing st).minTime =
        (if i = 0 then stop - start
          else if stop - start < st.minTime then stop - start else st.minTime) ∧
      (accumulate i start stop nread trailing st).maxTime =
        (if i = 0 then stop - start
          else if stop - start < st.minTime then st.maxTime
          else if stop - start > st.maxTime then stop - start else st.maxTime) ∧
      (accumulate i start stop nread trailing st).minBytes =
        (if i = 0 then nread else if nread < st.minBytes then nread else st.minBytes) ∧
      (accumulate i start stop nread trailing st).maxBytes =
        (if i = 0 then nread
          else if nread < st.minBytes then st.maxBytes
          else if nread > st.maxBytes then nread else st.maxBytes) := by
  obtain ⟨c1, c2, c3, c4, _⟩ := classify_fields trailing st
  unfold accumulate
  simp only []
  obtain ⟨t1, t2, t3, t4, _⟩ := track_fields i (stop - start) nread
    { classify trailing st with
      toGlobals := insertNodeSorted (stop - start) (classify trailing st).toGlobals }
  rw [t1, t2, t3, t4]
  simp only [c1, c2, c3, c4, and_self]

theorem accumulate_globals (i start stop nread : Int) (trailing : List Char) (st : State) :
    (accumulate i start stop nread trailing st).timeList =
        st.timeList.orderedInsert (fun a b => a ≤ b) (stop - start) ∧
      (accumulate i start stop nread trailing st).listSize = st.listSize + 1 ∧
      (accumulate i start stop nread trailing st).iterations = st.iterations ∧
      (accumulate i start stop nread trailing st).statusCode = extractStatusCode st.response ∧
      (accumulate i start stop nread trailing st).response = st.response := by
  obtain ⟨_, _, _, _, c5, c6, c7, c8, c9⟩ := classify_fields trailing st
  unfold accumulate
  simp only []
  obtain ⟨_, _, _, _, t5, t6, _, t8, t9⟩ := track_fields i (stop - start) nread
    { classify trailing st with
      toGlobals := insertNodeSorted (stop - start) (classify trailing st).toGlobals }
  refine ⟨?_, ?_, ?_, ?_, ?_⟩
  · rw [t5]; simp only []; rw [insertNodeSorted_timeList, c5]
  · rw [t5]; simp only []; rw [insertNodeSorted_listSize, c6]
  · rw [t6]; exact c7
  · rw [t8]; exact c9
  · rw [t9]; exact c8

/-- Induction over the request loop: a property that every successful iteration carries
from `i` to `i + 1` holds at `i + remaining` when the loop completes. -/
theorem requestLoop_invariant (profile : Bool) (request : List Char) (net : Nat → Exchange)
    (P : Nat → State → Prop)
    (step : ∀ i st st', P i st →
      iteration profile request (i : Int) (net i) st = Except.ok st' → P (i + 1) st') :
    ∀ (remaining i : Nat) (st st' : State), P i st →
      requestLoop profile request net remaining i st = Except.ok st' →
      P (i + remaining) st' := by
  intro remaining
  induction remaining with
  | zero =>
    intro i st st' hP h
    simp only [requestLoop, Except.ok.injEq] at h
    subst h
    exact hP
  | succ r ih =>
    intro i st st' hP h
    unfold requestLoop at h
    cases hit : iteration profile request (i : Int) (net i) st with
    | error e => rw [hit] at h; cases h
    | ok st1 =>
      rw [hit] at h
      have := ih (i + 1) st1 st' (step i st st1 hP hit) h
      rwa [Nat.add_assoc, Nat.add_comm 1 r] at this

/-- The loop completes when no exchange fails. -/
theorem requestLoop_completes (profile : Bool) (request : List Char) (net : Nat → Exchange) :
    ∀ (remaining i : Nat) (st : State),
      (∀ j, j < remaining → succeeds (sendLen request) (net (i + j)) = true) →
      ∃ st', requestLoop profile request net remaining i st = Except.ok st' := by
  intro remaining
  induction remaining with
  | zero => intro i st _; exact ⟨st, rfl⟩
  | succ r ih =>
    intro i st h
    obtain ⟨data, _, hit⟩ := iteration_of_succeeds profile request (i : Int) (net i) st
      (by simpa using h 0 (Nat.succ_pos r))
    unfold requestLoop
    rw [hit]
    apply ih
    intro j hj
    have := h (j + 1) (by omega)
    rwa [← Nat.add_assoc, Nat.add_right_comm] at this

/-- The loop exits at the first exchange that fails, having begun no later iteration. -/
theorem requestLoop_aborts (profile : Bool) (request : List Char) (net : Nat → Exchange) :
    ∀ (k remaining i : Nat) (st : State), k < remaining →
      (∀ j, j < k → succeeds (sendLen request) (net (i + j)) = true) →
      succeeds (sendLen request) (net (i + k)) = false →
      ∃ f st', requestLoop profile request net remaining i st = Except.error (f, st') ∧
        st'.iterations = st.iterations + k + 1 := by
  intro k
  induction k with
  | zero =>
    intro remaining i st hk _ hfail
    obtain ⟨r, rfl⟩ : ∃ r, remaining = r + 1 := ⟨remaining - 1, by omega⟩
    obtain ⟨f, hf⟩ := iteration_of_not_succeeds profile request (i : Int) (net i) st
      (by simpa using hfail)
    exact ⟨f, _, by unfold requestLoop; rw [hf], rfl⟩
  | succ k ih =>
    intro remaining i st hk hok hfail
    obtain ⟨r, rfl⟩ : ∃ r, remaining = r + 1 := ⟨remaining - 1, by omega⟩
    obtain ⟨data, _, hit⟩ := iteration_of_succeeds profile request (i : Int) (net i) st
      (by simpa using hok 0 (Nat.succ_pos k))
    have hok2 : ∀ j, j < k → succeeds (sendLen request) (net (i + 1 + j)) = true := by
      intro j hj
      have := hok (j + 1) (by omega)
      rwa [← Nat.add_assoc, Nat.add_right_comm] at this
    have hfail2 : succeeds (sendLen request) (net (i + 1 + k)) = false := by
      rwa [Nat.add_assoc, Nat.add_comm 1 k]
    obtain ⟨f, st', h1, h2⟩ := ih r (i + 1) _ (by omega) hok2 hfail2
    refine ⟨f, st', by unfold requestLoop; rw [hit]; exact h1, ?_⟩
    rw [h2]
    cases profile
    · simp [afterRecv]; omega
    · simp [afterRecv, (accumulate_globals _ _ _ _ _ _).2.2.1]; omega
/-! ## Minimum and maximum -/

theorem independentMinMax_snoc (l : List Int) (v mn mx : Int)
    (h : independentMinMax l = some (mn, mx)) :
    independentMinMax (l ++ [v]) =
      some (if v < mn then v else mn, if v > mx then v else mx) := by
  cases l with
  | nil => simp [independentMinMax] at h
  | cons a as =>
    simp only [independentMinMax, Option.some.injEq] at h
    simp only [independentMinMax, List.cons_append, List.foldl_append, List.foldl_cons,
      List.foldl_nil, h]

theorem extremes_seed (f : Nat → Int) : Extremes f 1 (f 0) (f 0) := by
  refine ⟨?_, ⟨0, by omega, rfl⟩, ⟨0, by omega, rfl⟩, by simp [independentMinMax, List.range_succ]⟩
  intro j hj
  have : j = 0 := by omega
  subst this
  exact ⟨le_refl _, le_refl _⟩

theorem extremes_step (f : Nat → Int) (k : Nat) (mn mx : Int) (h : Extremes f k mn mx) :
    Extremes f (k + 1) (if f k < mn then f k else mn)
      (if f k < mn then mx else if f k > mx then f k else mx) := by
  obtain ⟨hb, ⟨a, ha, hmn⟩, ⟨b, hb2, hmx⟩, hind⟩ := h
  have hle : mn ≤ mx := le_trans (hb a ha).1 (hb a ha).2
  refine ⟨?_, ?_, ?_, ?_⟩
  · intro j hj
    rcases Nat.lt_succ_iff_lt_or_eq.mp hj with hlt | rfl
    · have := hb j hlt
      split_ifs <;> omega
    · split_ifs <;> omega
  · by_cases h1 : f k < mn
    · exact ⟨k, by omega, by simp [h1]⟩
    · exact ⟨a, by omega, by rw [if_neg h1]; exact hmn⟩
  · by_cases h1 : f k < mn
    · exact ⟨b, by omega, by rw [if_pos h1]; exact hmx⟩
    · by_cases h2 : f k > mx
      · exact ⟨k, by omega, by rw [if_neg h1, if_pos h2]⟩
      · exact ⟨b, by omega, by rw [if_neg h1, if_neg h2]; exact hmx⟩
  · rw [List.range_succ, List.map_append, List.map_singleton,
      independentMinMax_snoc _ _ _ _ hind]
    congr 2
    split_ifs <;> omega

theorem iteration_ok_inv (request : List Char) (i : Int) (x : Exchange) (st st' : State)
    (h : iteration true request i x st = Except.ok st') :
    ∃ data, x.received = some data ∧
      st' = accumulate i (millis x.startTime) (millis x.stopTime) (nreadOf x) x.trailing
        (afterRecv data st) := by
  cases hs : succeeds (sendLen request) x with
  | false =>
    obtain ⟨f, hf⟩ := iteration_of_not_succeeds true request i x st hs
    rw [hf] at h
    cases h
  | true =>
    obtain ⟨data, hd, hit⟩ := iteration_of_succeeds true request i x st hs
    rw [hit] at h
    simp only [if_true, Except.ok.injEq] at h
    exact ⟨data, hd, h.symm⟩
theorem iteration_extremes (request : List Char) (net : Nat → Exchange) (i : Nat)
    (st st' : State)
    (hP : i = 0 ∨ (Extremes (fun j => elapsedOf (net j)) i st.minTime st.maxTime ∧
      Extremes (fun j => nreadOf (net j)) i st.minBytes st.maxBytes))
    (h : iteration true request (i : Int) (net i) st = Except.ok st') :
    i + 1 = 0 ∨ (Extremes (fun j => elapsedOf (net j)) (i + 1) st'.minTime st'.maxTime ∧
      Extremes (fun j => nreadOf (net j)) (i + 1) st'.minBytes st'.maxBytes) := by
  right
  obtain ⟨data, _, rfl⟩ := iteration_ok_inv request _ _ _ _ h
  obtain ⟨m1, m2, m3, m4⟩ := accumulate_minmax (i : Int) (millis (net i).startTime)
    (millis (net i).stopTime) (nreadOf (net i)) (net i).trailing (afterRecv data st)
  rw [m1, m2, m3, m4]
  rcases hP with rfl | ⟨hE, hB⟩
  · simp only [Nat.cast_zero, if_true]
    exact ⟨extremes_seed (fun j => elapsedOf (net j)), extremes_seed (fun j => nreadOf (net j))⟩
  · have hi : i ≠ 0 := by
      rintro rfl
      obtain ⟨_, ⟨a, ha, _⟩, _⟩ := hE
      omega
    have hi2 : ¬ ((i : Int) = 0) := by exact_mod_cast hi
    simp only [hi2, if_false]
    exact ⟨extremes_step (fun j => elapsedOf (net j)) i _ _ hE,
      extremes_step (fun j => nreadOf (net j)) i _ _ hB⟩

/-- Claim C3: in a profiling run of `N >= 1` requests none of which fails, the loop
completes and the tracked `minTime` and `maxTime` are the minimum and the maximum of the
`N` recorded elapsed times, `minBytes` and `maxBytes` those of the `N` byte counts: each
bounds every sample, each is one of the samples, and the pair is the one that two
independent comparisons per sample compute (`Extremes`).  The `else if` of the code
loses no extremum, also when a sample equals the running minimum. -/
theorem min_max_tracking (request : List Char) (net : Nat → Exchange) (N : Nat)
    (stack : State) (hN : 0 < N)
    (hok : ∀ j, j < N → succeeds (sendLen request) (net j) = true) :
    ∃ st, requestLoop true request net N 0 (initialState (N : Int) stack) = Except.ok st ∧
      Extremes (fun j => elapsedOf (net j)) N st.minTime st.maxTime ∧
      Extremes (fun j => nreadOf (net j)) N st.minBytes st.maxBytes := by
  obtain ⟨st, hst⟩ := requestLoop_completes true request net N 0 (initialState (N : Int) stack)
    (by intro j hj; simpa using hok j hj)
  have h := requestLoop_invariant true request net
    (fun k s => k = 0 ∨ (Extremes (fun j => elapsedOf (net j)) k s.minTime s.maxTime ∧
      Extremes (fun j => nreadOf (net j)) k s.minBytes s.maxBytes))
    (fun i s s' hP hit => iteration_extremes request net i s s' hP hit)
    N 0 (initialState (N : Int) stack) st (Or.inl rfl) hst
  rw [Nat.zero_add] at h
  rcases h with h0 | h1
  · omega
  · exact ⟨st, hst, h1⟩

theorem sendLen_exampleRequest : sendLen exampleRequest = 57 :=
  (sendBytes_eq exampleRequest (by decide) (by decide)).1

theorem exampleExchange_succeeds (response : String) (ms : Int) :
    succeeds (sendLen exampleRequest) (exampleExchange response ms) = true := by
  rw [sendLen_exampleRequest]
  simp [succeeds, exampleExchange, toSizeT]

theorem min_max_tracking_witness :
    0 < 4 ∧
      (∀ j, j < 4 → succeeds (sendLen exampleRequest)
        (exampleExchange "HTTP/1.1 200 OK\r\n\r\nhello" ([5, 3, 8, 3].getD j 0)) = true) ∧
      ∃ st, requestLoop true exampleRequest
          (fun j => exampleExchange "HTTP/1.1 200 OK\r\n\r\nhello" ([5, 3, 8, 3].getD j 0)) 4 0
          (initialState ((4 : Nat) : Int) exampleStack) = Except.ok st ∧
        st.minTime = 3 ∧ st.maxTime = 8 := by
  have hok : ∀ j, j < 4 → succeeds (sendLen exampleRequest)
      (exampleExchange "HTTP/1.1 200 OK\r\n\r\nhello" ([5, 3, 8, 3].getD j 0)) = true :=
    fun j _ => exampleExchange_succeeds _ _
  obtain ⟨st, hst, hE, _⟩ := min_max_tracking exampleRequest
    (fun j => exampleExchange "HTTP/1.1 200 OK\r\n\r\nhello" ([5, 3, 8, 3].getD j 0)) 4
    exampleStack (by decide) hok
  refine ⟨by decide, hok, st, hst, ?_⟩
  have hind := hE.2.2.2
  have hval : independentMinMax ((List.range 4).map (fun j =>
      elapsedOf (exampleExchange "HTTP/1.1 200 OK\r\n\r\nhello" ([5, 3, 8, 3].getD j 0)))) =
      some (3, 8) := by decide
  rw [hval] at hind
  simp only [Option.some.injEq, Prod.mk.injEq] at hind
  exact ⟨hind.1.symm, hind.2.symm⟩
/-! ## The run -/

theorem numRequestOf_pos (atoiResult : Int) : 1 ≤ (numRequestOf true atoiResult).toNat := by
  simp only [numRequestOf, if_true]
  split_ifs <;> omega

theorem iteration_sizes (request : List Char) (net : Nat → Exchange) (i : Nat) (st st' : State)
    (hP : st.listSize = (st.timeList.length : Int) ∧ st.timeList.length = i ∧ st.iterations = i)
    (h : iteration true request (i : Int) (net i) st = Except.ok st') :
    st'.listSize = (st'.timeList.length : Int) ∧ st'.timeList.length = i + 1 ∧
      st'.iterations = i + 1 := by
  obtain ⟨data, _, rfl⟩ := iteration_ok_inv request _ _ _ _ h
  obtain ⟨g1, g2, g3, _⟩ := accumulate_globals (i : Int) (millis (net i).startTime)
    (millis (net i).stopTime) (nreadOf (net i)) (net i).trailing (afterRecv data st)
  obtain ⟨h1, h2, h3⟩ := hP
  rw [g1, g2, g3, List.orderedInsert_length]
  simp only [afterRecv]
  refine ⟨?_, ?_, ?_⟩
  · rw [h1]; push_cast; rfl
  · rw [h2]
  · rw [h3]

theorem first_failure (p : Nat → Bool) (N : Nat) (h : ¬ ∀ j, j < N → p j = true) :
    ∃ k, k < N ∧ (∀ j, j < k → p j = true) ∧ p k = false := by
  have hex : ∃ k, k < N ∧ p k = false := by
    by_contra hc
    apply h
    intro j hj
    by_contra hp
    exact hc ⟨j, hj, by simpa using hp⟩
  refine ⟨Nat.find hex, (Nat.find_spec hex).1, ?_, (Nat.find_spec hex).2⟩
  intro j hj
  by_contra hp
  exact Nat.find_min hex hj ⟨lt_trans hj (Nat.find_spec hex).1, by simpa using hp⟩

theorem run_of_failure (arg request host : List Char) (atoiResult : Int) (net : Nat → Exchange)
    (stack : State) (trailing : List Char) (hb : buildRequest arg = some (request, host))
    (k : Nat) (hk : k < (numRequestOf true atoiResult).toNat)
    (hok : ∀ j, j < k → succeeds (sendLen request) (net j) = true)
    (hfail : succeeds (sendLen request) (net k) = false) :
    (run true arg atoiResult net stack trailing).termination = Termination.exit EXIT_FAILURE ∧
      (run true arg atoiResult net stack trailing).iterations = k + 1 ∧
      (run true arg atoiResult net stack trailing).report = none := by
  obtain ⟨f, st', h1, h2⟩ := requestLoop_aborts true request net k
    (numRequestOf true atoiResult).toNat 0
    (initialState (numRequestOf true atoiResult) stack) hk
    (by intro j hj; simpa using hok j hj) (by simpa using hfail)
  unfold run
  simp only [hb, h1, h2, true_and, and_true]
  simp [initialState]

theorem run_of_success (arg request host : List Char) (atoiResult : Int) (net : Nat → Exchange)
    (stack : State) (trailing : List Char) (hb : buildRequest arg = some (request, host))
    (hok : ∀ j, j < (numRequestOf true atoiResult).toNat →
      succeeds (sendLen request) (net j) = true) :
    (run true arg atoiResult net stack trailing).termination = Termination.exit EXIT_SUCCESS ∧
      (run true arg atoiResult net stack trailing).iterations =
        (numRequestOf true atoiResult).toNat ∧
      (run true arg atoiResult net stack trailing).report.isSome = true := by
  obtain ⟨st, hst⟩ := requestLoop_completes true request net
    (numRequestOf true atoiResult).toNat 0 (initialState (numRequestOf true atoiResult) stack)
    (by intro j hj; simpa using hok j hj)
  have h := requestLoop_invariant true request net
    (fun k s => s.listSize = (s.timeList.length : Int) ∧ s.timeList.length = k ∧ s.iterations = k)
    (fun i s s' hP hit => iteration_sizes request net i s s' hP hit)
    (numRequestOf true atoiResult).toNat 0 (initialState (numRequestOf true atoiResult) stack) st
    ⟨rfl, rfl, rfl⟩ hst
  rw [Nat.zero_add] at h
  obtain ⟨h1, h2, h3⟩ := h
  have hpos := numRequestOf_pos atoiResult
  have hne : st.timeList ≠ [] := by
    intro he
    rw [he] at h2
    simp at h2
    omega
  obtain ⟨m, hm⟩ : ∃ m, findMedian st.toGlobals = some m := by
    rw [findMedian_eq st.toGlobals h1 hne]
    split_ifs <;> exact ⟨_, rfl⟩
  unfold run
  simp only [hb, hst, if_true, report, hm, h3, true_and, and_true, Option.isSome_some]

/-- Claim C9: in a profiling run of `N` requests, if the exchange of iteration `k < N`
is the first that fails to resolve, connect, send or receive, then the run exits with
the nonzero status `EXIT_FAILURE`, has begun exactly `k + 1` iterations (none after the
failing one) and prints no report.  The run ends with `EXIT_SUCCESS`, or prints a
report, only if none of the `N` exchanges fails; and if none fails it does end with
`EXIT_SUCCESS` after `N` iterations and with a report. -/
theorem abort_on_executor_failure (arg request host : List Char) (atoiResult : Int)
    (net : Nat → Exchange) (stack : State) (trailing : List Char)
    (hb : buildRequest arg = some (request, host)) :
    (∀ k, k < (numRequestOf true atoiResult).toNat →
      (∀ j, j < k → succeeds (sendLen request) (net j) = true) →
      succeeds (sendLen request) (net k) = false →
      (run true arg atoiResult net stack trailing).termination =
          Termination.exit EXIT_FAILURE ∧
        EXIT_FAILURE ≠ 0 ∧
        (run true arg atoiResult net stack trailing).iterations = k + 1 ∧
        (run true arg atoiResult net stack trailing).report = none) ∧
    (((run true arg atoiResult net stack trailing).termination = Termination.exit EXIT_SUCCESS ∨
        (run true arg atoiResult net stack trailing).report.isSome = true) →
      ∀ j, j < (numRequestOf true atoiResult).toNat →
        succeeds (sendLen request) (net j) = true) ∧
    ((∀ j, j < (numRequestOf true atoiResult).toNat →
        succeeds (sendLen request) (net j) = true) →
      (run true arg atoiResult net stack trailing).termination = Termination.exit EXIT_SUCCESS ∧
        (run true arg atoiResult net stack trailing).iterations =
          (numRequestOf true atoiResult).toNat ∧
        (run true arg atoiResult net stack trailing).report.isSome = true) := by
  refine ⟨?_, ?_, ?_⟩
  · intro k hk hok hfail
    obtain ⟨h1, h2, h3⟩ := run_of_failure arg request host atoiResult net stack trailing hb k hk
      hok hfail
    exact ⟨h1, by decide, h2, h3⟩
  · intro h
    by_contra hc
    obtain ⟨k, hk, hok, hfail⟩ := first_failure (fun j => succeeds (sendLen request) (net j)) _ hc
    obtain ⟨h1, _, h3⟩ := run_of_failure arg request host atoiResult net stack trailing hb k hk
      hok hfail
    rcases h with h | h
    · rw [h1] at h
      exact absurd h (by decide)
    · rw [h3] at h
      exact absurd h (by decide)
  · exact run_of_success arg request host atoiResult net stack trailing hb
/-! ## Evaluation on example runs -/

theorem buildRequest_example :
    buildRequest "example.com".toList = some (exampleRequest, "example.com".toList) := by
  decide

theorem abort_on_executor_failure_witness :
    buildRequest "example.com".toList = some (exampleRequest, "example.com".toList) ∧
      1 < (numRequestOf true 3).toNat ∧
      (∀ j, j < 1 → succeeds (sendLen exampleRequest) (exampleRefused j) = true) ∧
      succeeds (sendLen exampleRequest) (exampleRefused 1) = false ∧
      (run true "example.com".toList 3 exampleRefused exampleStack []).termination =
        Termination.exit EXIT_FAILURE ∧
      (run true "example.com".toList 3 exampleRefused exampleStack []).iterations = 2 ∧
      (run true "example.com".toList 3 exampleRefused exampleStack []).report = none ∧
      (∀ j, j < (numRequestOf true 2).toNat →
        succeeds (sendLen exampleRequest) (exampleOneFailure j) = true) ∧
      (run true "example.com".toList 2 exampleOneFailure exampleStack []).termination =
        Termination.exit EXIT_SUCCESS ∧
      (run true "example.com".toList 2 exampleOneFailure exampleStack []).report.isSome = true ∧
      (∀ j, j < (numRequestOf true 2).toNat →
        succeeds (sendLen exampleRequest) (exampleOneFailure j) = true) := by
  have hlen := sendLen_exampleRequest
  have h0 : ∀ j, j < 1 → succeeds (sendLen exampleRequest) (exampleRefused j) = true := by
    intro j hj
    have : j = 0 := by omega
    subst this
    exact exampleExchange_succeeds _ _
  have h1 : succeeds (sendLen exampleRequest) (exampleRefused 1) = false := by
    rw [hlen]; decide
  have h2 : ∀ j, j < (numRequestOf true 2).toNat →
      succeeds (sendLen exampleRequest) (exampleOneFailure j) = true := by
    intro j _
    unfold exampleOneFailure
    split_ifs <;> exact exampleExchange_succeeds _ _
  have a := (abort_on_executor_failure "example.com".toList exampleRequest "example.com".toList
    3 exampleRefused exampleStack [] buildRequest_example).1 1 (by decide) h0 h1
  have b := (abort_on_executor_failure "example.com".toList exampleRequest "example.com".toList
    2 exampleOneFailure exampleStack [] buildRequest_example).2.2 h2
  have c := (abort_on_executor_failure "example.com".toList exampleRequest "example.com".toList
    2 exampleOneFailure exampleStack [] buildRequest_example).2.1 (Or.inl b.1)
  exact ⟨buildRequest_example, by decide, h0, h1, a.1, a.2.2.1, a.2.2.2, h2, b.1, b.2.2, c⟩

theorem extract_of_long (response : Nat → Char) (data : List Char) (h : 12 ≤ data.length) :
    extractStatusCode (recv response data).1 =
      [data.getD 9 NUL, data.getD 10 NUL, data.getD 11 NUL] := by
  have hlen : 12 ≤ (data.take BUF_SIZE).length := by
    simp [BUF_SIZE]; omega
  have key : ∀ k, k < 12 → (data.take BUF_SIZE).getD k (response k) = data.getD k NUL := by
    intro k hk
    have h1 : k < (data.take BUF_SIZE).length := by omega
    have h2 : k < data.length := by omega
    simp only [List.getD_eq_getElem?_getD, List.getElem?_eq_getElem h1,
      List.getElem?_eq_getElem h2, Option.getD_some, List.getElem_take]
  simp only [extractStatusCode, recv]
  rw [key 9 (by omega), key 10 (by omega), key 11 (by omega)]

/-- Claim C5, amended: the status code is taken from fixed offsets without a check of
the length.  For a response of at least 12 bytes it is the 3 bytes at offsets 9, 10, 11
of the response, so a response that begins `HTTP/1.1 200 OK\r\n` yields `200`.  Bytes of
the buffer at and beyond the length of the response keep their earlier content.  For a
response of any length, an iteration whose calls do not fail completes, and the status
code is what the buffer holds at offsets 9, 10, 11 after the receipt: the extraction has
no failure. -/
theorem status_code_extraction (response : Nat → Char) (data : List Char) :
    (12 ≤ data.length →
      extractStatusCode (recv response data).1 =
        [data.getD 9 NUL, data.getD 10 NUL, data.getD 11 NUL]) ∧
    (∀ k, data.length ≤ k → (recv response data).1 k = response k) ∧
    (∀ (request : List Char) (i : Int) (x : Exchange) (st : State),
      succeeds (sendLen request) x = true → x.received = some data →
      ∃ st', iteration true request i x st = Except.ok st' ∧
        st'.statusCode = extractStatusCode (recv st.response data).1) ∧
    extractStatusCode (recv response "HTTP/1.1 200 OK\r\n".toList).1 = "200".toList := by
  refine ⟨extract_of_long response data, ?_, ?_, ?_⟩
  · intro k hk
    have h1 : (data.take BUF_SIZE).length ≤ k := by
      simp only [List.length_take]; omega
    simp only [recv, List.getD_eq_getElem?_getD, List.getElem?_eq_none h1, Option.getD_none]
  · intro request i x st hs hd
    obtain ⟨data2, hd2, hit⟩ := iteration_of_succeeds true request i x st hs
    rw [hd] at hd2
    cases hd2
    refine ⟨_, hit, ?_⟩
    simp only [if_true]
    rw [(accumulate_globals _ _ _ _ _ _).2.2.2.1]
    rfl
  · rw [extract_of_long _ _ (by decide)]
    decide

theorem status_code_extraction_witness :
    12 ≤ "HTTP/1.1 503 Service Unavailable\r\n".toList.length ∧
      extractStatusCode (recv exampleStack.response
        "HTTP/1.1 503 Service Unavailable\r\n".toList).1 = "503".toList ∧
      "HTTP".toList.length ≤ 9 ∧
      (recv exampleStack.response "HTTP".toList).1 9 = exampleStack.response 9 ∧
      succeeds (sendLen exampleRequest) (exampleExchange "HTTP" 3) = true ∧
      (exampleExchange "HTTP" 3).received = some "HTTP".toList ∧
      ∃ st', iteration true exampleRequest 0 (exampleExchange "HTTP" 3) exampleStack =
          Except.ok st' ∧
        st'.statusCode = extractStatusCode (recv exampleStack.response "HTTP".toList).1 := by
  have a := status_code_extraction exampleStack.response
    "HTTP/1.1 503 Service Unavailable\r\n".toList
  have b := status_code_extraction exampleStack.response "HTTP".toList
  refine ⟨by decide, ?_, by decide, b.2.1 9 (by decide), exampleExchange_succeeds _ _, rfl,
    b.2.2.1 exampleRequest 0 (exampleExchange "HTTP" 3) exampleStack
      (exampleExchange_succeeds _ _) rfl⟩
  rw [a.1 (by decide)]
  decide

/-- Claim C5 fails as stated: in a profiling run of two requests in which the first
response is `HTTP/1.1 404 Not Found` (26 bytes) and the second breaks off after the 4
bytes `HTTP`, the second extraction does not fail.  It yields `404`, the bytes the first
response left at offsets 9, 10, 11; the request is counted as a second error and the
run ends with `EXIT_SUCCESS`. -/
theorem status_code_extraction_counterexample :
    (∀ j, nreadOf (exampleShortResponse j) = if j = 0 then 26 else 4) ∧
      (∃ st, requestLoop true exampleRequest exampleShortResponse 2 0
          (initialState 2 exampleStack) = Except.ok st ∧
        st.statusCode = "404".toList ∧ st.errorCodeList.length = 2) ∧
      (run true "example.com".toList 2 exampleShortResponse exampleStack []).termination =
        Termination.exit EXIT_SUCCESS ∧
      (run true "example.com".toList 2 exampleShortResponse exampleStack []).fatal = none ∧
      (run true "example.com".toList 2 exampleShortResponse exampleStack []).report.map
        (fun r => r.errorCodes) = some ["404".toList, "404".toList] := by
  refine ⟨?_, ⟨_, rfl, by decide, by decide⟩, by decide, by decide, by decide⟩
  intro j
  unfold exampleShortResponse
  split_ifs <;> decide

/-- Claim C7 fails as stated: for `--url example.com` the request text has 56 bytes,
and `send` is handed 57 bytes: the text and a trailing NUL byte. -/
theorem wire_bytes_counterexample :
    buildRequest "example.com".toList =
        some ("GET / HTTP/1.1\r\nHost: example.com\r\nConnection: close\r\n\r\n".toList,
          "example.com".toList) ∧
      sendBytes "GET / HTTP/1.1\r\nHost: example.com\r\nConnection: close\r\n\r\n".toList =
        "GET / HTTP/1.1\r\nHost: example.com\r\nConnection: close\r\n\r\n".toList ++ [NUL] ∧
      sendBytes "GET / HTTP/1.1\r\nHost: example.com\r\nConnection: close\r\n\r\n".toList ≠
        "GET / HTTP/1.1\r\nHost: example.com\r\nConnection: close\r\n\r\n".toList ∧
      "GET / HTTP/1.1\r\nHost: example.com\r\nConnection: close\r\n\r\n".toList.length = 56 ∧
      sendLen "GET / HTTP/1.1\r\nHost: example.com\r\nConnection: close\r\n\r\n".toList = 57 := by
  have h := sendBytes_eq exampleRequest (by decide) (by decide)
  refine ⟨by decide, h.2, ?_, by decide, sendLen_exampleRequest⟩
  intro hc
  have := congrArg List.length hc
  have h2 := h.2
  unfold exampleRequest at h2
  rw [h2] at this
  simp at this

theorem wire_bytes_witness :
    NUL ∉ "example.com".toList ∧
      (wireRequest (pathOf "example.com".toList) (hostOf "example.com".toList)).length
        < BUF_SIZE ∧
      (∃ request host, buildRequest "example.com".toList = some (request, host) ∧
        sendBytes request = exampleRequest ++ [NUL] ∧ sendLen request = 57) ∧
      (exampleExchange "" 0).resolved = some [⟨true, false⟩, ⟨true, true⟩] ∧
      connectLoop [⟨true, false⟩, ⟨true, true⟩] = some ⟨true, true⟩ ∧
      ∃ st', iteration true exampleRequest 0 { exampleExchange "" 0 with sendRet := 20 }
        exampleStack = Except.error (Fatal.send, st') := by
  obtain ⟨request, host, hb, hreq, hs, hl, hsend⟩ :=
    wire_bytes "example.com".toList (by decide) (by decide)
  have hw : wireRequest (pathOf "example.com".toList) (hostOf "example.com".toList) =
      exampleRequest := by decide
  rw [hw] at hreq hs hl
  subst hreq
  refine ⟨by decide, by decide, ⟨_, host, hb, hs, by rw [hl]; decide⟩, rfl, by decide, ?_⟩
  have := hsend true 0 { exampleExchange "" 0 with sendRet := 20 } exampleStack
    [⟨true, false⟩, ⟨true, true⟩] ⟨true, true⟩ rfl (by decide) (by decide) (by decide)
  rw [this, hl]
  decide

/-- Claim C4, the code at a failing input: in a profiling run of two requests of which
the first is answered `404` and the second `200`, `successfulReqs` ends at 1 and the
percentage printed is `(float)(1 / 2) * 100 = 0`, not 50: the quotient is an integer
division. -/
theorem success_rate_one_failure_of_two :
    (∃ st, requestLoop true exampleRequest exampleOneFailure 2 0
        (initialState 2 exampleStack) = Except.ok st ∧ st.successfulReqs = 1) ∧
      (run true "example.com".toList 2 exampleOneFailure exampleStack []).report.map
        (fun r => (r.numRequest, r.succeeded)) = some (2, 0) ∧
      succeededPercent 1 2 = 0 ∧
      succeededPercent 1 2 ≠ 50 := by
  refine ⟨⟨_, rfl, by decide⟩, by decide, by decide, by decide⟩

/-- Claim C6, the code at a failing input: in a profiling run of two requests of which
the first is answered `404` and the second `200`, the error list has one node, which
points to the array `statusCode`; the array holds `200` when the list is printed, so the
error code reported is `200`, not `404`. -/
theorem error_codes_one_failure_of_two :
    (∃ st, requestLoop true exampleRequest exampleOneFailure 2 0
        (initialState 2 exampleStack) = Except.ok st ∧
      st.errorCodeList = [CharPtr.statusCode] ∧ st.statusCode = "200".toList) ∧
      (run true "example.com".toList 2 exampleOneFailure exampleStack []).report.map
        (fun r => r.errorCodes) = some ["200".toList] ∧
      (run true "example.com".toList 2 exampleOneFailure exampleStack []).report.map
        (fun r => r.errorCodes) ≠ some ["404".toList] := by
  refine ⟨⟨_, rfl, by decide, by decide⟩, by decide, by decide⟩
end HttpRequestTool
